import Mathlib

set_option maxHeartbeats 1000000

/-!
Verification of the six-sigma web application core.

The definitions below are a shallow embedding of the Python sources:
`src/app/settings.py`, `src/app/main.py` and `src/app/tools.py`.
Python IEEE doubles are modelled by `FloatVal` (a rational together with
the special values `nan`, `-inf`, `+inf`); Python machine computations on
them keep their branch structure.
-/

namespace SixSigma

/-- Location (mu) of the normal random variable, `settings.LOC`. -/
def LOC : ℚ := 1.5

/-- Maximum number of processes plotted on a figure, `settings.MAX_P`. -/
def MAX_P : ℕ := 10

/-- The three quality classes, members of `settings.SigmaSupremum`. -/
inductive QualityClass
  | RED
  | YELLOW
  | GREEN
deriving DecidableEq, Repr

/-- Model of a Python float: NaN, signed infinities, or a finite value
(finite doubles are rationals, modelled exactly). -/
inductive FloatVal
  | nan
  | negInf
  | posInf
  | finite (x : ℚ)
deriving DecidableEq, Repr

/-- Python float strict comparison `a < b` as a Bool (comparisons against
NaN are always false). -/
def floatLt : FloatVal → FloatVal → Bool
  | .nan, _ => false
  | _, .nan => false
  | .posInf, _ => false
  | .negInf, .negInf => false
  | .negInf, _ => true
  | .finite _, .posInf => true
  | .finite _, .negInf => false
  | .finite x, .finite y => decide (x < y)

/-- The `settings.SigmaSupremum` enum: members in declaration order, each
carrying its float value (RED: 2.1, YELLOW: 4.1, GREEN: inf). -/
def SigmaSupremum : List (QualityClass × FloatVal) :=
  [(.RED, .finite 2.1), (.YELLOW, .finite 4.1), (.GREEN, .posInf)]

/-- The `for sup in SigmaSupremum` loop of `SberProcess.label`: return the
first member whose value exceeds sigma; after the loop fall through to the
name of the last iterated member. The `last` argument carries the loop
variable; its initial value is unused because `SigmaSupremum` is nonempty. -/
def labelLoop (sigma : FloatVal) : List (QualityClass × FloatVal) → QualityClass → QualityClass
  | [], last => last
  | (nm, bound) :: rest, _ =>
    if floatLt sigma bound then nm else labelLoop sigma rest nm

/-- The classifier `SberProcess.label` (after `float(self.sigma)`). -/
def label (sigma : FloatVal) : QualityClass :=
  labelLoop sigma SigmaSupremum .GREEN

/-- The value of `sigma` as serialized by `SberProcess.sigma`: either one
of the sentinel strings or a float. -/
inductive SigmaOut
  | str (s : String)
  | num (v : FloatVal)
deriving DecidableEq, Repr

/-- Python `float(...)` applied to a `SberProcess.sigma` value, as done at
the top of `SberProcess.label`. Only the two sentinel strings ever occur;
any other string would raise in Python and is mapped to `nan` here. -/
def pyFloat : SigmaOut → FloatVal
  | .str s => if s = "-inf" then .negInf else if s = "inf" then .posInf else .nan
  | .num v => v

/-- CLAIM C1: for sigma values produced by valid records (the sentinel
strings map to signed infinities, all other values are finite), the
classifier returns the first class in ascending bound order whose bound
strictly exceeds sigma: RED below 2.1, YELLOW on [2.1, 4.1), GREEN at or
above 4.1 and at +infinity. -/
theorem label_bands (x : ℚ) :
    label (pyFloat (.str "-inf")) = .RED
    ∧ label (pyFloat (.str "inf")) = .GREEN
    ∧ (x < 2.1 → label (pyFloat (.num (.finite x))) = .RED)
    ∧ (2.1 ≤ x → x < 4.1 → label (pyFloat (.num (.finite x))) = .YELLOW)
    ∧ (4.1 ≤ x → label (pyFloat (.num (.finite x))) = .GREEN) := by
  refine ⟨by decide, by decide, ?_, ?_, ?_⟩
  · intro h
    simp [label, labelLoop, SigmaSupremum, floatLt, pyFloat, h]
  · intro h1 h2
    simp [label, labelLoop, SigmaSupremum, floatLt, pyFloat, h2, not_lt.mpr h1]
  · intro h
    simp [label, labelLoop, SigmaSupremum, floatLt, pyFloat, not_lt.mpr h,
      not_lt.mpr (le_trans (show (2.1 : ℚ) ≤ 4.1 by norm_num) h)]

/-- Witness for C1 at concrete sigma values 1, 3 and 5. -/
theorem label_bands_witness :
    label (pyFloat (.num (.finite 1))) = .RED
    ∧ label (pyFloat (.num (.finite 3))) = .YELLOW
    ∧ label (pyFloat (.num (.finite 5))) = .GREEN :=
  ⟨(label_bands 1).2.2.1 (by norm_num),
   (label_bands 3).2.2.2.1 (by norm_num) (by norm_num),
   (label_bands 5).2.2.2.2 (by norm_num)⟩

/-- CLAIM C9: the classifier is total over every float value: it always
returns one of the three classes; for +infinity and NaN every strict
comparison against the enum bounds is false, so the post-loop fallthrough
returns GREEN. -/
theorem label_total :
    (∀ v : FloatVal, label v = .RED ∨ label v = .YELLOW ∨ label v = .GREEN)
    ∧ (SigmaSupremum.all fun su =>
        !floatLt FloatVal.posInf su.2 && !floatLt FloatVal.nan su.2) = true
    ∧ label FloatVal.posInf = .GREEN
    ∧ label FloatVal.nan = .GREEN := by
  refine ⟨?_, by decide, by decide, by decide⟩
  intro v
  cases v with
  | nan => right; right; decide
  | negInf => left; decide
  | posInf => right; right; decide
  | finite x =>
    by_cases h1 : x < 2.1
    · left; simp [label, labelLoop, SigmaSupremum, floatLt, h1]
    · by_cases h2 : x < 4.1
      · right; left; simp [label, labelLoop, SigmaSupremum, floatLt, h1, h2]
      · right; right; simp [label, labelLoop, SigmaSupremum, floatLt, h1, h2]

/-- The input record `SberProcess` of `main.py`: `tests` a positive int,
`fails` a nonnegative int, `name` an optional string. Positivity of
`tests` and the cross-field invariant are enforced by the pydantic layer
and appear as hypotheses (`ValidSber`) on the theorems. -/
structure SberProcess where
  tests : ℕ
  fails : ℕ
  name : Option String := none
deriving DecidableEq, Repr

/-- Validity of a record after pydantic field validation (`PositiveInt`)
and the `prevent_fails_greater_than_tests` model validator. -/
def ValidSber (p : SberProcess) : Prop :=
  0 < p.tests ∧ p.fails ≤ p.tests

/-- The model validator `prevent_fails_greater_than_tests`: rejects a
record with `fails > tests`, otherwise returns it unchanged. -/
def prevent_fails_greater_than_tests (p : SberProcess) : Except Unit SberProcess :=
  if p.tests < p.fails then .error () else .ok p

/-- The computed field `SberProcess.defect_rate`: `fails / tests`. -/
def defect_rate (p : SberProcess) : ℚ :=
  (p.fails : ℚ) / (p.tests : ℚ)

/-- Modelled from the spec: `scipy.stats.norm(LOC).ppf`, the external
quantile routine of the statistical library (not part of this repository).
Its structural behaviour on the unit interval is fixed — `-inf` at 0,
`+inf` at 1, NaN outside [0, 1], finite inside (0, 1) — while the finite
branch is kept parametric in the routine `fin`. -/
def normPpfM (fin : ℚ → ℚ) (p : ℚ) : FloatVal :=
  if p = 0 then .negInf
  else if p = 1 then .posInf
  else if 0 < p ∧ p < 1 then .finite (fin p)
  else .nan

/-- The computed field `SberProcess.sigma`: the quantile at
`1 - defect_rate`; infinite values are replaced by the sentinel strings,
any other value is returned as the float itself. -/
def sigma (fin : ℚ → ℚ) (p : SberProcess) : SigmaOut :=
  match normPpfM fin (1 - defect_rate p) with
  | .negInf => .str "-inf"
  | .posInf => .str "inf"
  | v => .num v

/-- CLAIM C3: for every valid record, `defect_rate` equals
`fails / tests` exactly and lies in the closed interval [0, 1]. -/
theorem defect_rate_exact_in_unit_interval (p : SberProcess) (h : ValidSber p) :
    defect_rate p = (p.fails : ℚ) / (p.tests : ℚ)
    ∧ 0 ≤ defect_rate p ∧ defect_rate p ≤ 1 := by
  obtain ⟨h1, h2⟩ := h
  have ht : (0 : ℚ) < (p.tests : ℚ) := by exact_mod_cast h1
  refine ⟨rfl, div_nonneg (by positivity) ht.le, ?_⟩
  rw [defect_rate, div_le_one ht]
  exact_mod_cast h2

/-- Witness for C3 at the record with 4 tests and 1 fail. -/
theorem defect_rate_exact_in_unit_interval_witness :
    defect_rate ⟨4, 1, none⟩ = ((1 : ℚ) / 4)
    ∧ 0 ≤ defect_rate ⟨4, 1, none⟩ ∧ defect_rate ⟨4, 1, none⟩ ≤ 1 := by
  have h := defect_rate_exact_in_unit_interval ⟨4, 1, none⟩ (by constructor <;> norm_num)
  refine ⟨?_, h.2.1, h.2.2⟩
  rw [h.1]
  norm_num

/-- Counterexample to C2 as stated: at `defect_rate = 0` (here 100 tests,
0 fails) the code produces the sentinel string "inf", not "+inf". -/
theorem sigma_zero_rate_not_plus_inf :
    sigma (fun q => q) ⟨100, 0, none⟩ = .str "inf"
    ∧ sigma (fun q => q) ⟨100, 0, none⟩ ≠ .str "+inf" := by
  have hdr : defect_rate ⟨100, 0, none⟩ = 0 := by
    rw [defect_rate]
    norm_num
  have hs : sigma (fun q => q) ⟨100, 0, none⟩ = .str "inf" := by
    simp only [sigma, hdr, normPpfM]
    norm_num
  refine ⟨hs, ?_⟩
  rw [hs]
  simp

/-- CLAIM C2 (amended: the positive sentinel is the string "inf", not
"+inf"): for every valid record, `defect_rate = 0` gives the sentinel
"inf", `defect_rate = 1` gives the sentinel "-inf", and any other
defect rate gives the finite quantile value at `1 - defect_rate`. -/
theorem sigma_cases (fin : ℚ → ℚ) (p : SberProcess) (h : ValidSber p) :
    (p.fails = 0 → sigma fin p = .str "inf")
    ∧ (p.fails = p.tests → sigma fin p = .str "-inf")
    ∧ (0 < p.fails → p.fails < p.tests →
        sigma fin p = .num (.finite (fin (1 - defect_rate p)))) := by
  obtain ⟨h1, h2⟩ := h
  have ht : (0 : ℚ) < (p.tests : ℚ) := by exact_mod_cast h1
  refine ⟨?_, ?_, ?_⟩
  · intro h0
    have hdr : defect_rate p = 0 := by
      rw [defect_rate, h0]
      simp
    simp only [sigma, hdr, normPpfM]
    norm_num
  · intro heq
    have hdr : defect_rate p = 1 := by
      rw [defect_rate, heq, div_self ht.ne.symm]
    simp only [sigma, hdr, normPpfM]
    norm_num
  · intro hlo hhi
    have hdr0 : 0 < defect_rate p := by
      rw [defect_rate]
      exact div_pos (by exact_mod_cast hlo) ht
    have hdr1 : defect_rate p < 1 := by
      rw [defect_rate, div_lt_one ht]
      exact_mod_cast hhi
    have hne1 : 1 - defect_rate p ≠ 0 := by
      intro hc
      rw [sub_eq_zero] at hc
      exact ne_of_lt hdr1 hc.symm
    have hne2 : 1 - defect_rate p ≠ 1 := by
      intro hc
      have : defect_rate p = 0 := by linarith
      exact ne_of_gt hdr0 this
    have hpos : 0 < 1 - defect_rate p ∧ 1 - defect_rate p < 1 :=
      ⟨by linarith, by linarith⟩
    simp only [sigma, normPpfM, if_neg hne1, if_neg hne2, if_pos hpos]

/-- Witness for C2 (amended) at records with defect rates 0, 1 and 1/2,
with the identity standing in for the finite quantile routine. -/
theorem sigma_cases_witness :
    sigma (fun q => q) ⟨100, 0, none⟩ = .str "inf"
    ∧ sigma (fun q => q) ⟨100, 100, none⟩ = .str "-inf"
    ∧ sigma (fun q => q) ⟨2, 1, none⟩ = .num (.finite (1 - defect_rate ⟨2, 1, none⟩)) :=
  ⟨(sigma_cases (fun q => q) ⟨100, 0, none⟩ ⟨by norm_num, by norm_num⟩).1 rfl,
   (sigma_cases (fun q => q) ⟨100, 100, none⟩ ⟨by norm_num, by norm_num⟩).2.1 rfl,
   (sigma_cases (fun q => q) ⟨2, 1, none⟩ ⟨by norm_num, by norm_num⟩).2.2
     (by norm_num) (by norm_num)⟩

/-- The three concrete handler classes of `tools.py` (the subclasses of
the abstract `Handler`). -/
inductive HandlerVariant
  | slacker
  | plotter
  | uploader
deriving DecidableEq, Repr

/-- The `mode` class attribute of each handler variant. -/
def HandlerVariant.mode : HandlerVariant → String
  | .slacker => "data"
  | .plotter => "plot"
  | .uploader => "obs"

/-- Python dict assignment `d[k] = v`: overwrite the value in place when
the key exists, otherwise append the binding (insertion order kept). -/
def dictInsert {α : Type} : List (String × α) → String → α → List (String × α)
  | [], k, v => [(k, v)]
  | (k', v') :: rest, k, v =>
    if k' = k then (k', v) :: rest else (k', v') :: dictInsert rest k v

/-- A Python dict comprehension over a list of key-value pairs. -/
def buildDict {α : Type} (kvs : List (String × α)) : List (String × α) :=
  kvs.foldl (fun d kv => dictInsert d kv.1 kv.2) []

/-- The classes of module `tools` passing the `predicate` of `main.py`
(strict subclasses of `Handler`), in the alphabetical order produced by
`inspect.getmembers`: Plotter, Slacker, Uploader. -/
def toolsHandlerMembers : List HandlerVariant :=
  [.plotter, .slacker, .uploader]

/-- The registry `mode_handlers` of `main.py`: a dict comprehension
mapping each discovered handler's mode to the handler. -/
def mode_handlers : List (String × HandlerVariant) :=
  buildDict (toolsHandlerMembers.map fun h => (h.mode, h))

/-- Counterexample to C4 as stated: a dict comprehension never fails on a
duplicate key; with two variants both declaring mode "data", construction
succeeds and silently keeps the variant enumerated last. -/
theorem mode_handlers_duplicate_kept :
    buildDict [("data", HandlerVariant.slacker), ("data", HandlerVariant.uploader)]
      = [("data", HandlerVariant.uploader)] := by
  decide

/-- CLAIM C4 (amended: duplicates do not fail): registry construction
enumerates every handler variant exactly once and yields the three-entry
registry; but two variants declaring the same mode identifier would not be
a fatal error — the comprehension silently keeps the last variant. -/
theorem mode_handlers_spec :
    mode_handlers = [("plot", .plotter), ("data", .slacker), ("obs", .uploader)]
    ∧ toolsHandlerMembers.Nodup
    ∧ HandlerVariant.slacker ∈ toolsHandlerMembers
    ∧ HandlerVariant.plotter ∈ toolsHandlerMembers
    ∧ HandlerVariant.uploader ∈ toolsHandlerMembers
    ∧ ∀ (k : String) (a b : HandlerVariant),
        buildDict [(k, a), (k, b)] = [(k, b)] := by
  refine ⟨by decide, by decide, by decide, by decide, by decide, ?_⟩
  intro k a b
  simp [buildDict, dictInsert]

/-- The operations of `Plotter._plot_sigma` once the figure exists, in
source order. There is no try/finally in the source: the close happens
last, only when every previous step returned normally. -/
inductive PlotStep
  | subplots
  | drawPanels
  | savefig
  | seekBuffer
  | closeFig
deriving DecidableEq, Repr

/-- The straight-line body of `Plotter._plot_sigma`. -/
def plotSteps : List PlotStep :=
  [.subplots, .drawPanels, .savefig, .seekBuffer, .closeFig]

/-- Run a straight-line sequence of steps under an environment telling
which steps raise: returns the executed steps and the raising step, if
any. A raising step aborts the remainder (no handler in the source). -/
def runSteps (raises : PlotStep → Bool) : List PlotStep → List PlotStep × Option PlotStep
  | [] => ([], none)
  | s :: rest =>
    if raises s then ([], some s)
    else
      match runSteps raises rest with
      | (tr, err) => (s :: tr, err)

/-- Execution of `Plotter._plot_sigma` under a raising environment. -/
def plotSigmaRun (raises : PlotStep → Bool) : List PlotStep × Option PlotStep :=
  runSteps raises plotSteps

/-- The environment in which only `plt.savefig` raises. -/
def savefigRaises : PlotStep → Bool :=
  fun s => decide (s = PlotStep.savefig)

/-- Counterexample to C5 as stated: when `plt.savefig` raises, the figure
has been created but `plt.close(fig)` is never executed, so the handler
exits with the figure still open. -/
theorem plot_close_skipped_on_error :
    PlotStep.subplots ∈ (plotSigmaRun savefigRaises).1
    ∧ (plotSigmaRun savefigRaises).2 = some PlotStep.savefig
    ∧ PlotStep.closeFig ∉ (plotSigmaRun savefigRaises).1 := by
  decide

/-- CLAIM C5 (amended: the figure is released only on success): the close
step executes exactly when the whole rendering body runs to completion;
any error while constructing or saving the figure returns without closing
it. -/
theorem plot_close_iff_success (raises : PlotStep → Bool) :
    PlotStep.closeFig ∈ (plotSigmaRun raises).1 ↔ (plotSigmaRun raises).2 = none := by
  cases h1 : raises .subplots <;> cases h2 : raises .drawPanels <;>
    cases h3 : raises .savefig <;> cases h4 : raises .seekBuffer <;>
    cases h5 : raises .closeFig <;>
    simp [plotSigmaRun, plotSteps, runSteps, h1, h2, h3, h4, h5]

/-- The `self.dumps` list built by `Plotter.__init__`: one model dump per
process, in input order. -/
def plotterDumps {α β : Type} (dump : β → α) (processes : List β) : List α :=
  processes.map dump

/-- A value of the dict returned by `Uploader.handle_request`: either a
string or the dumps payload. -/
inductive UploadVal (α : Type)
  | str (s : String)
  | payload (l : List α)
deriving DecidableEq, Repr

/-- The dict literal returned by `Uploader.handle_request` after the two
`put_object` calls. -/
def uploaderResponse {α : Type} (bucket folder : String) (dumps : List α) :
    List (String × UploadVal α) :=
  [("bucket", .str bucket), ("folder", .str folder), ("process_list", .payload dumps)]

/-- The key set of a response dict, in insertion order. -/
def respKeys {α : Type} (r : List (String × UploadVal α)) : List String :=
  r.map Prod.fst

/-- Counterexample to C6 as stated: the persister's response holds its
metric dumps under the key "process_list"; the key set is not
bucket/folder/metrics and "metrics" is absent. -/
theorem uploader_keys_not_metrics :
    respKeys (uploaderResponse "b" "f" ([1, 2] : List ℕ))
      = ["bucket", "folder", "process_list"]
    ∧ respKeys (uploaderResponse "b" "f" ([1, 2] : List ℕ))
      ≠ ["bucket", "folder", "metrics"]
    ∧ "metrics" ∉ respKeys (uploaderResponse "b" "f" ([1, 2] : List ℕ)) := by
  decide

/-- CLAIM C6 (amended: the metrics key is named "process_list"): for every
record list, the persister returns a mapping with exactly the keys bucket,
folder and process_list, the last holding the ordered per-record dumps. -/
theorem uploader_response_spec {α β : Type} (bucket folder : String)
    (dump : β → α) (processes : List β) :
    respKeys (uploaderResponse bucket folder (plotterDumps dump processes))
      = ["bucket", "folder", "process_list"]
    ∧ uploaderResponse bucket folder (plotterDumps dump processes)
      = [("bucket", .str bucket), ("folder", .str folder),
         ("process_list", .payload (processes.map dump))] := by
  exact ⟨rfl, rfl⟩

/-- The slice `process_bulk[:MAX_P]` applied by the `bulk` endpoint. -/
def bulkTruncate {α : Type} (l : List α) : List α :=
  l.take MAX_P

/-- CLAIM C7: a bulk request keeps exactly the first `MAX_P` records of
the input in input order (the truncation is a list-order-preserving
initial segment) and keeps all records when there are at most `MAX_P`. -/
theorem bulk_truncation (α : Type) (l : List α) :
    bulkTruncate l ++ l.drop MAX_P = l
    ∧ (l.length ≤ MAX_P → bulkTruncate l = l)
    ∧ (MAX_P < l.length → (bulkTruncate l).length = MAX_P) := by
  refine ⟨List.take_append_drop MAX_P l, ?_, ?_⟩
  · intro h
    exact List.take_of_length_le h
  · intro h
    rw [bulkTruncate, List.length_take]
    omega

/-- Witness for C7 on a 12-element list (truncated to 10) and on a
2-element list (kept whole). -/
theorem bulk_truncation_witness :
    (bulkTruncate (List.range 12)).length = MAX_P
    ∧ bulkTruncate [1, 2] = ([1, 2] : List ℕ) :=
  ⟨(bulk_truncation ℕ (List.range 12)).2.2 (by simp [MAX_P]),
   (bulk_truncation ℕ [1, 2]).2.1 (by simp [MAX_P])⟩

/-- A Python value as stored in a `ComparableDump` field at runtime: the
dataclass does not enforce its annotations, so any of these can sit in any
field. -/
inductive PyVal
  | int (n : ℤ)
  | float (x : ℚ)
  | str (s : String)
  | none
deriving DecidableEq, Repr

/-- Python `operator.eq` restricted to the values above: numeric values
compare numerically across int/float, other cross-type comparisons are
False, never an error. -/
def pyEq : PyVal → PyVal → Bool
  | .int n, .int m => decide (n = m)
  | .int n, .float x => decide ((n : ℚ) = x)
  | .float x, .int n => decide (x = (n : ℚ))
  | .float x, .float y => decide (x = y)
  | .str s, .str t => decide (s = t)
  | .none, .none => true
  | _, _ => false

/-- The predicate of `math.isclose` with its default tolerances
(rel_tol = 1e-09, abs_tol = 0.0). -/
def iscloseQ (a b : ℚ) : Bool :=
  decide (|a - b| ≤ max ((1 / 10 ^ 9) * max |a| |b|) 0)

/-- The numeric reading of a Python value; `math.isclose` accepts only
real numbers and raises TypeError otherwise. -/
def toQ : PyVal → Option ℚ
  | .int n => some ((n : ℚ))
  | .float x => some x
  | _ => none

/-- `math.isclose` on Python values: a TypeError (modelled as `.error`)
when either argument is not a number. -/
def pyIsClose (v w : PyVal) : Except Unit Bool :=
  match toQ v, toQ w with
  | some a, some b => .ok (iscloseQ a b)
  | _, _ => .error ()

/-- One field comparison of `EqMixin.__eq__`: the tester is selected from
the `testers` dict by the runtime type of the LEFT operand — `float`
selects `math.isclose`, the other types select `operator.eq`. -/
def applyTester (v w : PyVal) : Except Unit Bool :=
  match v with
  | .float _ => pyIsClose v w
  | _ => .ok (pyEq v w)

/-- The `all(...)` generator of `EqMixin.__eq__`: short-circuits on the
first False field; an exception raised by a tester propagates. -/
def allTesters : List (PyVal × PyVal) → Except Unit Bool
  | [] => .ok true
  | (v, w) :: rest =>
    match applyTester v w with
    | .error e => .error e
    | .ok true => allTesters rest
    | .ok false => .ok false

/-- The `ComparableDump` dataclass of `tools.py`, fields in declaration
order (which is also the `__dict__` iteration order). -/
structure ComparableDump where
  tests : PyVal
  fails : PyVal
  defect_rate : PyVal
  sigma : PyVal
  label : PyVal
  name : PyVal
deriving DecidableEq, Repr

/-- The zipped field values of two dumps, in `__dict__` order. -/
def dumpPairs (a b : ComparableDump) : List (PyVal × PyVal) :=
  [(a.tests, b.tests), (a.fails, b.fails), (a.defect_rate, b.defect_rate),
   (a.sigma, b.sigma), (a.label, b.label), (a.name, b.name)]

/-- `EqMixin.__eq__` on two dumps of the same class: all field testers
must pass; a tester's TypeError propagates out of the comparison. -/
def dumpEq (a b : ComparableDump) : Except Unit Bool :=
  allTesters (dumpPairs a b)

/-- The Python value of the optional `name` field. -/
def pyOfName : Option String → PyVal
  | some s => .str s
  | none => .none

/-- A dump whose fields carry the declared types: ints in `tests` and
`fails`, floats in `defect_rate` and `sigma`, a string label, an optional
string name. -/
def mkDump (tests fails : ℤ) (dr sg : ℚ) (lab : String) (nm : Option String) :
    ComparableDump :=
  ⟨.int tests, .int fails, .float dr, .float sg, .str lab, pyOfName nm⟩

/-- The Bool produced by a field tester that returns normally. -/
def testerVal (p : PyVal × PyVal) : Bool :=
  match applyTester p.1 p.2 with
  | .ok b => b
  | .error _ => false

/-- When every field tester returns normally, the short-circuiting
conjunction agrees with the plain conjunction of the tester values. -/
theorem allTesters_eq_all (ps : List (PyVal × PyVal))
    (h : ∀ p ∈ ps, applyTester p.1 p.2 = .ok (testerVal p)) :
    allTesters ps = .ok (ps.all testerVal) := by
  induction ps with
  | nil => rfl
  | cons p ps ih =>
    obtain ⟨v, w⟩ := p
    have hp := h (v, w) (List.mem_cons_self _ _)
    rw [allTesters, hp]
    cases hb : testerVal (v, w) with
    | true =>
      rw [ih fun q hq => h q (List.mem_cons_of_mem _ hq)]
      simp [hb]
    | false =>
      simp [hb]

/-- Name fields compare by `operator.eq`, matching Option equality. -/
theorem applyTester_name (nm nm' : Option String) :
    applyTester (pyOfName nm) (pyOfName nm') = .ok (decide (nm = nm')) := by
  cases nm <;> cases nm' <;> simp [pyOfName, applyTester, pyEq]

/-- The tolerance test accepts equal arguments. -/
theorem iscloseQ_self (a : ℚ) : iscloseQ a a = true := by
  simp only [iscloseQ, sub_self, abs_zero, decide_eq_true_eq]
  exact le_max_right _ 0

/-- CLAIM C8: on dumps carrying their declared field types, equality
never raises and is the conjunction of exact equality on the int, string
and optional fields with the fixed-tolerance test on the two float
fields; consequently two dumps whose sigmas differ by at most one unit in
the last place (relative 2^-52) compare equal, and two dumps differing
only in name compare unequal. -/
theorem dumpEq_typed_spec (t t' f f' : ℤ) (dr dr' s1 s2 : ℚ)
    (lab lab' : String) (nm nm' : Option String) :
    (dumpEq (mkDump t f dr s1 lab nm) (mkDump t' f' dr' s2 lab' nm')
      = .ok (decide (t = t') && decide (f = f') && iscloseQ dr dr'
          && iscloseQ s1 s2 && decide (lab = lab') && decide (nm = nm')))
    ∧ (|s1 - s2| ≤ |s1| / 2 ^ 52 →
        dumpEq (mkDump t f dr s1 lab nm) (mkDump t f dr s2 lab nm) = .ok true)
    ∧ (nm ≠ nm' →
        dumpEq (mkDump t f dr s1 lab nm) (mkDump t f dr s1 lab nm') = .ok false) := by
  have key : ∀ (t t' f f' : ℤ) (dr dr' s1 s2 : ℚ) (lab lab' : String)
      (nm nm' : Option String),
      dumpEq (mkDump t f dr s1 lab nm) (mkDump t' f' dr' s2 lab' nm')
        = .ok (decide (t = t') && decide (f = f') && iscloseQ dr dr'
            && iscloseQ s1 s2 && decide (lab = lab') && decide (nm = nm')) := by
    intro t t' f f' dr dr' s1 s2 lab lab' nm nm'
    rw [dumpEq, allTesters_eq_all]
    · simp only [dumpPairs, mkDump, List.all_cons, List.all_nil, testerVal,
        applyTester, pyIsClose, toQ, pyEq, applyTester_name]
      cases nm <;> cases nm' <;>
        simp [pyOfName, applyTester, pyEq, Bool.and_assoc, Bool.and_true]
    · intro p hp
      simp only [dumpPairs, mkDump, List.mem_cons, List.not_mem_nil, or_false] at hp
      rcases hp with h | h | h | h | h | h <;> subst h
      · rfl
      · rfl
      · rfl
      · rfl
      · rfl
      · simp [testerVal, applyTester_name]
  have hclose : |s1 - s2| ≤ |s1| / 2 ^ 52 → iscloseQ s1 s2 = true := by
    intro h
    simp only [iscloseQ, decide_eq_true_eq]
    refine le_trans (le_trans h ?_) (le_max_left _ 0)
    have h1 : |s1| ≤ max |s1| |s2| := le_max_left _ _
    have h2 : (0 : ℚ) ≤ max |s1| |s2| := le_trans (abs_nonneg s1) h1
    rw [div_eq_mul_inv, mul_comm]
    gcongr
    norm_num
  refine ⟨key t t' f f' dr dr' s1 s2 lab lab' nm nm', ?_, ?_⟩
  · intro h
    rw [key t t f f dr dr s1 s2 lab lab nm nm]
    simp [iscloseQ_self, hclose h]
  · intro h
    rw [key t t f f dr dr s1 s1 lab lab nm nm']
    simp [iscloseQ_self, h]

/-- Witness for C8: two dumps whose sigmas differ by one unit in the last
place compare equal; changing only the name makes them unequal. -/
theorem dumpEq_typed_spec_witness :
    dumpEq (mkDump 50 25 (1 / 2) (3 / 2) "RED" (some "a"))
        (mkDump 50 25 (1 / 2) (3 / 2 + 3 / 2 ^ 53) "RED" (some "a")) = .ok true
    ∧ dumpEq (mkDump 50 25 (1 / 2) (3 / 2) "RED" (some "a"))
        (mkDump 50 25 (1 / 2) (3 / 2) "RED" (some "b")) = .ok false :=
  ⟨(dumpEq_typed_spec 50 50 25 25 (1 / 2) (1 / 2) (3 / 2) (3 / 2 + 3 / 2 ^ 53)
      "RED" "RED" (some "a") (some "a")).2.1 (by
        rw [show (3 / 2 : ℚ) - (3 / 2 + 3 / 2 ^ 53) = -(3 / 2 ^ 53) by ring, abs_neg,
          abs_of_nonneg (show (0 : ℚ) ≤ 3 / 2 ^ 53 by norm_num),
          abs_of_nonneg (show (0 : ℚ) ≤ 3 / 2 by norm_num)]
        norm_num),
   (dumpEq_typed_spec 50 50 25 25 (1 / 2) (1 / 2) (3 / 2) (3 / 2)
      "RED" "RED" (some "a") (some "b")).2.2 (by simp)⟩

/-- A dump whose sigma holds the string sentinel "-inf", as produced by
`SberProcess.sigma` when every test failed. -/
def dumpStrSigma : ComparableDump :=
  ⟨.int 100, .int 100, .float 1, .str "-inf", .str "RED", .none⟩

/-- A dump with the same record but a finite float sigma. -/
def dumpFloatSigma : ComparableDump :=
  ⟨.int 100, .int 100, .float 1, .float (-5), .str "RED", .none⟩

/-- CLAIM C10: the tester is chosen by the runtime type of the left
operand's field, and sigma can genuinely hold a sentinel string (shown on
the `sigma` embedding at defect rate 1): comparing the string-sigma dump
against the float-sigma dump returns False through `operator.eq`, while
the reversed comparison feeds the string to `math.isclose` and raises, so
dump equality is neither symmetric nor exception-free. -/
theorem dumpEq_asymmetric_raises :
    sigma (fun q => q) ⟨100, 100, none⟩ = .str "-inf"
    ∧ dumpEq dumpStrSigma dumpFloatSigma = .ok false
    ∧ dumpEq dumpFloatSigma dumpStrSigma = .error ()
    ∧ dumpEq dumpStrSigma dumpFloatSigma ≠ dumpEq dumpFloatSigma dumpStrSigma := by
  have hdr : defect_rate ⟨100, 100, none⟩ = 1 := by
    rw [defect_rate]
    norm_num
  have hs : sigma (fun q => q) ⟨100, 100, none⟩ = .str "-inf" := by
    simp only [sigma, hdr, normPpfM]
    norm_num
  have e1 : applyTester (.int 100) (.int 100) = .ok true := by
    simp [applyTester, pyEq]
  have e2 : applyTester (.float 1) (.float 1) = .ok true := by
    simp [applyTester, pyIsClose, toQ, iscloseQ_self]
  have e3 : applyTester (.str "-inf") (.float (-5)) = .ok false := by
    simp [applyTester, pyEq]
  have e4 : applyTester (.float (-5)) (.str "-inf") = .error () := by
    simp [applyTester, pyIsClose, toQ]
  have h2 : dumpEq dumpStrSigma dumpFloatSigma = .ok false := by
    simp [dumpEq, dumpPairs, dumpStrSigma, dumpFloatSigma, allTesters, e1, e2, e3]
  have h3 : dumpEq dumpFloatSigma dumpStrSigma = .error () := by
    simp [dumpEq, dumpPairs, dumpStrSigma, dumpFloatSigma, allTesters, e1, e2, e4]
  refine ⟨hs, h2, h3, ?_⟩
  rw [h2, h3]
  exact fun hcon => Except.noConfusion hcon

end SixSigma
